import Mathlib

/-!
A shallow embedding of the `command` package's core: the error classifier,
the shell router with probing, the pipeline copier, the Reader/Writer/Stream
lifecycle wrappers, and the context-carried environment map.

Errors are modelled structurally: Go compares sentinel errors by identity,
and distinct sentinel errors in the scenarios below are given distinct
messages, so structural equality on `GoErr` coincides with identity for the
errors that occur.
-/

namespace Command

/-- Go error values as they occur in this package: a plain error
(`errors.New` / `fmt.Errorf`), the classified `command.Error`
(fields `Err`, `Code`, `Log`; `cmdErrorNil` is the nil-`Err` case,
`cmdError` the non-nil one), and the results of `errors.Join`
applied to two arguments with the nil values discarded
(`join1` = exactly one non-nil argument, `join2` = both non-nil). -/
inductive GoErr where
  | basic (msg : String)
  | cmdErrorNil (code : Int) (log : String)
  | cmdError (cause : GoErr) (code : Int) (log : String)
  | join1 (a : GoErr)
  | join2 (a b : GoErr)
  deriving DecidableEq, Repr

/-- `ErrClosed` from io.go. -/
def errClosed : GoErr := .basic "command: write to closed buffer"

/-- `ErrReadOnly` from io.go. -/
def errReadOnly : GoErr := .basic "command: write to read-only buffer"

/-- `errors.Is(e, target)`: structural identity at each node of the chain,
descending through `Unwrap() error` (`cmdError.cause`) and
`Unwrap() []error` (the join constructors). -/
def errorsIs : GoErr → GoErr → Bool
  | e@(.basic _), target => e == target
  | e@(.cmdErrorNil _ _), target => e == target
  | e@(.cmdError cause _ _), target => e == target || errorsIs cause target
  | e@(.join1 a), target => e == target || errorsIs a target
  | e@(.join2 a b), target => e == target || errorsIs a target || errorsIs b target

/-- `errors.As(err, &cmdErr)` for `*command.Error`: depth-first search of the
error chain for the first `cmdError` node, returning its fields. -/
def errAsCmdError : GoErr → Option (Option GoErr × Int × String)
  | .basic _ => none
  | .cmdErrorNil code log => some (none, code, log)
  | .cmdError cause code log => some (some cause, code, log)
  | .join1 a => errAsCmdError a
  | .join2 a b =>
      match errAsCmdError a with
      | some r => some r
      | none => errAsCmdError b

/-- `NotFound` from error.go: probe the chain for a `command.Error`; report
true when its `Err` is non-nil and its `Code` is 0.  `NotFound(nil)` is
false because `errors.As` finds nothing. -/
def goNotFound : Option GoErr → Bool
  | none => false
  | some e =>
      match errAsCmdError e with
      | none => false
      | some (cause, code, _) => cause.isSome && code == 0

/-- `errors.Join(a, b)`: nil values are discarded; nil when both are nil,
otherwise a join node wrapping the non-nil arguments. -/
def goJoin : Option GoErr → Option GoErr → Option GoErr
  | none, none => none
  | some a, none => some (.join1 a)
  | none, some b => some (.join1 b)
  | some a, some b => some (.join2 a b)

/-! ## Context-carried environment (env.go) -/

/-- The environment map attached to a context.  Go's `map[string]string` is
modelled as an association list with at most one binding per key, which
`envSet` maintains. -/
abbrev EnvMap := List (String × String)

/-- Map read `m[k]`. -/
def envGet (m : EnvMap) (k : String) : Option String :=
  (m.find? (fun kv => kv.1 == k)).map (fun kv => kv.2)

/-- Map write `m[k] = v`: replace the existing binding or append. -/
def envSet : EnvMap → String → String → EnvMap
  | [], k, v => [(k, v)]
  | (k', v') :: rest, k, v =>
      if k' == k then (k, v) :: rest else (k', v') :: envSet rest k v

/-- `maps.Copy(dst, src)`: write every binding of `src` into `dst`. -/
def envCopy (dst src : EnvMap) : EnvMap :=
  src.foldl (fun m kv => envSet m kv.1 kv.2) dst

/-- The context, restricted to the `envKey` slot.  Go's nil map and an absent
value are observationally identical through `Envs` (both read as nil), so
both are `none`. -/
structure Ctx where
  envVal : Option EnvMap
  deriving Repr, DecidableEq

/-- `Envs(ctx)`: the environment map stored in the context, nil if absent. -/
def Envs (ctx : Ctx) : Option EnvMap := ctx.envVal

/-- `WithEnv(ctx, env)`: clone the stored map (nil clones to nil, replaced by
a fresh empty map), merge `env` in with `maps.Copy`, store the result. -/
def WithEnv (ctx : Ctx) (env : EnvMap) : Ctx :=
  let val := (Envs ctx).getD []
  { ctx with envVal := some (envCopy val env) }

/-- `WithoutEnv(ctx)`: no-op when no environment is stored, otherwise store
nil (reads as no entries). -/
def WithoutEnv (ctx : Ctx) : Ctx :=
  if (Envs ctx).isNone then ctx else { ctx with envVal := none }

/-- The context-consulting branch of `Env` (env.go, lines 15-19): the value
under `key` when the stored map is non-nil and has it. -/
def envFromCtx (ctx : Ctx) (key : String) : Option String :=
  match Envs ctx with
  | some env => envGet env key
  | none => none

/-- `Env(ctx, m, key)` with the machine-probing fallback abstracted as
`machineQuery`: the context map wins when it has the key; otherwise the
machine is consulted. -/
def EnvRead (ctx : Ctx) (machineQuery : String → String) (key : String) : String :=
  match envFromCtx ctx key with
  | some v => v
  | none => machineQuery key

/-! ## Buffers, Machines and the Sh router (buffer.go, sh.go, stream_test helpers) -/

/-- A Buffer observed through reads until termination: the bytes it yields,
then either end-of-stream (`readErr = none`) or an error. -/
structure BufferModel where
  data : String
  readErr : Option GoErr
  deriving Repr, DecidableEq

/-- `Fail(err)`: a Buffer whose every Read returns `(0, err)`. -/
def failBuf (e : GoErr) : BufferModel := ⟨"", some e⟩

/-- Machines of the routing layer: `MachineFunc` adapters (the context is
dropped, as routing never consults it) and `Sh` routers with their route
table, core machine and fallback flag.  Route tables keep the most recent
registration first, mirroring overwrite-on-`Set`. -/
inductive Machine where
  | func (f : List String → BufferModel)
  | sh (routes : List (String × Machine)) (core : Machine) (fallback : Bool)

/-- `zeros.Map.CheckGet`: the machine registered for `name`, most recent
registration winning. -/
def lookupRoute : List (String × Machine) → String → Option Machine
  | [], _ => none
  | (n, m) :: rest, name => if n == name then some m else lookupRoute rest name

/-- `(*Sh).Handle(command, machine)`: register, overwriting any prior entry
for the name (the new entry shadows older ones). -/
def shHandle (routes : List (String × Machine)) (name : String) (m : Machine) :
    List (String × Machine) :=
  (name, m) :: routes

mutual

/-- `Machine.Command` / `(*Sh).command` (sh.go, lines 185-207): empty argv
fails with a plain error; otherwise the leading argument is looked up in the
route table; a hit delegates to the registered machine; a miss delegates to
the core when fallback is enabled and otherwise fails with the classified
not-found error.  (`(*Sh).Command` also runs `init`, which only populates
the cached OS/Arch/FS fields and does not affect the returned buffer.) -/
def commandFn : Machine → List String → BufferModel
  | .func f, args => f args
  | .sh _ _ _, [] => failBuf (.basic "no command specified")
  | .sh routes core fallback, (name :: rest) =>
      routeFn routes core fallback name rest
termination_by m _ => sizeOf m
decreasing_by
  all_goals simp_wf
  all_goals omega

/-- The route-table walk of `(*Sh).command`: first matching entry wins;
exhaustion falls back or fails according to the fallback flag. -/
def routeFn : List (String × Machine) → Machine → Bool → String → List String →
    BufferModel
  | [], core, fallback, name, rest =>
      if fallback then commandFn core (name :: rest)
      else failBuf (.cmdError (.basic ("command not found: " ++ name)) 0 "")
  | (n, m) :: routes, core, fallback, name, rest =>
      if n == name then commandFn m (name :: rest)
      else routeFn routes core fallback name rest
termination_by routes core _ _ _ => sizeOf routes + sizeOf core
decreasing_by
  all_goals simp_wf
  all_goals omega

end

/-- `(*Sh).Unshell` returns the wrapped core; `MachineFunc` does not
implement `Unsheller`. -/
def unshellOpt : Machine → Option Machine
  | .func _ => none
  | .sh _ core _ => some core

/-- `strings.TrimRightFunc(s, unicode.IsSpace)` restricted to the ASCII
whitespace the modelled buffers produce. -/
def trimRightSpace (s : String) : String :=
  ⟨(s.toList.reverse.dropWhile Char.isWhitespace).reverse⟩

/-- `Read(ctx, m, args...)`: run the command, read it to termination, strip
trailing whitespace, and return the output with the read error unchanged
(`Read` only mutates the `Log` field of an `Error` already in the chain,
which no modelled buffer carries diagnostics for). -/
def runRead (m : Machine) (args : List String) : String × Option GoErr :=
  let b := commandFn m args
  (trimRightSpace b.data, b.readErr)

/-- `probeRead` (env_test.go): read; stop on success or any non-not-found
error; on not-found, descend one layer via `Unshell` when the machine
exposes one and retry; stop with the not-found result at the bottom. -/
def probeRead : Machine → List String → String × Option GoErr
  | m, args =>
    let r := runRead m args
    if r.2.isNone || !goNotFound r.2 then r
    else
      match m with
      | .func _ => r
      | .sh _ core _ => probeRead core args

/-- Reachability along the `Unshell` one-layer-down relation: the executors
a probing loop can visit from `m`, each step removing one wrapping layer. -/
inductive UnshellReaches : Machine → Machine → Prop
  | refl (m : Machine) : UnshellReaches m m
  | step {m m' t : Machine} : unshellOpt m = some m' →
      UnshellReaches m' t → UnshellReaches m t

/-! ## The pipeline copier (`Copy`)

`Copy` launches one task per flow edge and the data dependencies run
strictly forward along the chain, so the concurrent run is observationally
the sequential left-to-right run modelled here.  Each endpoint is
characterised by what flows through it: the source by the bytes it yields
and the error (if any) ending its stream; an interior stage by the output it
produces from the input written into it, its terminating read error, and
its `Close` result; the sink by whether it is an `io.Closer` and its
`Close` result.  Interior stages are `*stream` values and hence always
`io.Closer`s. -/

/-- The source endpoint of a `Copy`: readable bytes, then end-of-stream
(`none`) or a read error. -/
structure SrcModel where
  label : String
  data : String
  readErr : Option GoErr
  deriving Repr

/-- An interior stage of a `Copy` (a `*stream`): the output it emits as a
function of the input written to it, the error (if any) ending its readable
side, and the result of closing its input side. -/
structure MidModel where
  label : String
  transform : String → String
  readErr : Option GoErr
  closeErr : Option GoErr

/-- The sink endpoint of a `Copy`: whether it implements `io.Closer`, and
its `Close` result when it does. -/
structure SinkModel where
  closable : Bool
  closeErr : Option GoErr
  deriving Repr

/-- What one edge task of `Copy` did: its reader's label, the byte count its
`io.Copy` returned, the copy error, whether its writer was an `io.Closer`
(and hence was closed by the deferred cleanup), and the close result that
cleanup observed (`none` when the writer is not closable). -/
structure EdgeRec where
  label : String
  n : Nat
  copyErr : Option GoErr
  writerClosable : Bool
  closeInvoked : Bool
  closeErr : Option GoErr
  deriving Repr, DecidableEq

/-- One `copyResult` entry: the reader's label and
`errors.Join(copyErr, closeErr)`. -/
structure CopyResult where
  cmd : String
  err : Option GoErr
  deriving Repr, DecidableEq

/-- The edge tasks of `Copy`, walked in flow order.  The running reader
state (`label`, `data`, `readErr`) starts at the source and, after the edge
into interior stage `m`, becomes `m` with its output `m.transform data`;
each edge records its copy outcome and the unconditional close of its
writer (interior stages always, the sink only when closable). -/
def copyEdges (label : String) (data : String) (readErr : Option GoErr) :
    List MidModel → SinkModel → List EdgeRec
  | [], sink =>
      [⟨label, data.length, readErr, sink.closable, sink.closable,
        if sink.closable then sink.closeErr else none⟩]
  | m :: rest, sink =>
      ⟨label, data.length, readErr, true, true, m.closeErr⟩ ::
      copyEdges m.label (m.transform data) m.readErr rest sink

/-- The complete observable outcome of one `Copy` call. -/
structure CopyOutcome where
  edges : List EdgeRec
  results : List CopyResult
  written : Nat
  err : Option (List CopyResult)
  sinkData : String

/-- `Copy(dst, src, mid...)` (the package's pipeline copier): run every edge
task, record per-edge results with the copy and close errors joined, sum
the byte counts of the edges whose copy succeeded, deliver the sink the
output of the last interior stage (or the source bytes when there is
none), and return the aggregate `*copyError` exactly when some edge's
copy failed — close failures alone are recorded in the results but do not
make `errgroup.Wait` report an error. -/
def runCopy (src : SrcModel) (mids : List MidModel) (sink : SinkModel) :
    CopyOutcome :=
  let edges := copyEdges src.label src.data src.readErr mids sink
  let results := edges.map (fun e => ⟨e.label, goJoin e.copyErr e.closeErr⟩)
  { edges := edges
    results := results
    written := (edges.filter (fun e => e.copyErr.isNone)).foldl
      (fun acc e => acc + e.n) 0
    err := if edges.any (fun e => e.copyErr.isSome) then some results else none
    sinkData := mids.foldl (fun d m => m.transform d) src.data }

/-- `(*copyError).Unwrap`: the non-nil per-edge errors, in edge order. -/
def copyErrorUnwrap (results : List CopyResult) : List GoErr :=
  results.filterMap (fun r => r.err)

/-- `errors.Is(copyErr, target)` for the aggregate error: the aggregate
itself is never the target sentinel, so membership holds exactly when some
unwrapped per-edge error chain contains the target. -/
def copyErrorIs (results : List CopyResult) (target : GoErr) : Bool :=
  (copyErrorUnwrap results).any (fun e => errorsIs e target)

/-! ### The uppercase interior stage of the example scenario (mem/tr.go) -/

/-- `expandSet` from mem/tr.go: expand `a-z`-style ranges into the listed
characters, forward or backward. -/
def expandSet (s : String) : List Char :=
  expandRunes s.toList
where
  rangeChars (a b : Char) : List Char :=
    if a ≤ b then
      (List.range (b.toNat - a.toNat + 1)).map (fun i => Char.ofNat (a.toNat + i))
    else
      (List.range (a.toNat - b.toNat + 1)).map (fun i => Char.ofNat (a.toNat - i))
  expandRunes : List Char → List Char
    | a :: '-' :: b :: rest => rangeChars a b ++ expandRunes rest
    | a :: rest => a :: expandRunes rest
    | [] => []

/-- The replacement pairs `tr` builds: position-wise from `from` to `to`,
repeating the last character of `to` when it is shorter, no pair at all
when `to` is empty. -/
def trPairs (fromSet toSet : List Char) : List (Char × Char) :=
  match toSet.getLast? with
  | none => []
  | some lastTo =>
      (List.range fromSet.length).filterMap (fun i =>
        match fromSet.get? i with
        | none => none
        | some r => some (r, (toSet.get? i).getD lastTo))

/-- `strings.Replacer` restricted to the single-character pairs `tr`
produces: each character is replaced by its first matching pair. -/
def trMapChar (pairs : List (Char × Char)) (c : Char) : Char :=
  ((pairs.find? (fun p => p.1 == c)).map (fun p => p.2)).getD c

/-- The byte transformation of `tr set1 set2` from mem/tr.go: every chunk is
mapped character-by-character, so the whole stream is. -/
def trTransform (set1 set2 : String) (input : String) : String :=
  ⟨input.toList.map (trMapChar (trPairs (expandSet set1) (expandSet set2)))⟩

/-! ## Lifecycle wrappers (reader.go, writer.go, stream.go)

The wrappers guard a `started`/`closed` pair with a mutex; the sequential
model below is the behaviour of each operation under that mutual
exclusion.  The underlying Execution Unit is characterised by the
capabilities the wrappers query dynamically. -/

/-- The underlying unit as a wrapper sees it: whether it is an `io.Closer`,
what that close returns, and — for the Writer — the single value its
background drain task delivers on the completion channel. -/
structure UnitModel where
  closable : Bool
  closeErr : Option GoErr
  drain : Option GoErr
  deriving Repr, DecidableEq

/-- The `started`/`closed` flag pair shared by `reader` and `writer`. -/
structure WrapSt where
  started : Bool
  closed : Bool
  deriving Repr, DecidableEq

/-- What one `Close` call on a `reader` did: the state it left behind,
whether the derived scope's cancel ran, whether the unit's `Close` was
invoked, and the returned error. -/
structure ReaderCloseEff where
  st : WrapSt
  canceled : Bool
  unitClosed : Bool
  result : Option GoErr
  deriving Repr, DecidableEq

/-- `(*reader).Close` (reader.go, lines 29-50): nil when already closed;
otherwise mark closed, and only when a read had started, cancel the derived
scope (when a cancel function is held) and close the unit when it is an
`io.Closer`, returning that close's error; nil otherwise. -/
def readerClose (hasCancel : Bool) (u : UnitModel) (s : WrapSt) : ReaderCloseEff :=
  if s.closed then ⟨s, false, false, none⟩
  else
    let s' : WrapSt := { s with closed := true }
    let canceled := s.started && hasCancel
    if s.started && u.closable then ⟨s', canceled, true, u.closeErr⟩
    else ⟨s', canceled, false, none⟩

/-- `(*reader).Read` (reader.go, lines 17-27): a closed reader returns
`(0, ErrClosed)` without touching the unit; otherwise the read marks the
wrapper started and delegates, `underlying` being what the unit's read
returns. -/
def readerRead (underlying : Nat × Option GoErr) (s : WrapSt) :
    WrapSt × (Nat × Option GoErr) :=
  if s.closed then (s, (0, some errClosed))
  else ({ s with started := true }, underlying)

/-- What one `Close` call on a `writer` did: the state left behind, whether
the unit's input side was closed, whether the call blocked on the drain
task's completion channel, and the returned error. -/
structure WriterCloseEff where
  st : WrapSt
  inputClosed : Bool
  waitedDrain : Bool
  result : Option GoErr
  deriving Repr, DecidableEq

/-- `(*writer).Close` (writer.go, lines 46-67): nil when already closed;
nil without any effect when never started; otherwise close the unit's input
side when it is an `io.Closer` — returning that error immediately when it
is non-nil — and then block on the drain channel, returning its value. -/
def writerClose (u : UnitModel) (s : WrapSt) : WriterCloseEff :=
  if s.closed then ⟨s, false, false, none⟩
  else
    let s' : WrapSt := { s with closed := true }
    if !s.started then ⟨s', false, false, none⟩
    else if u.closable then
      match u.closeErr with
      | some e => ⟨s', true, false, some e⟩
      | none => ⟨s', true, true, u.drain⟩
    else ⟨s', false, true, u.drain⟩

/-- `NewWriter` (writer.go, lines 121-130): the capability check happens at
construction; a unit lacking `WriteBuffer` is wrapped in `readOnlyBuffer`,
whose every `Write` returns `(0, ErrReadOnly)`. -/
structure WriterModel where
  preArmedReadOnly : Bool
  deriving Repr, DecidableEq

/-- `NewWriter`'s construction-time capability check. -/
def newWriter (writable : Bool) : WriterModel :=
  { preArmedReadOnly := !writable }

/-- `(*writer).Write` (writer.go, lines 31-44): a closed writer returns
`(0, ErrClosed)`; otherwise the write marks the wrapper started (spawning
the drain task) and delegates to the held writer — the `readOnlyBuffer`
when the writer was pre-armed, the unit itself otherwise (`underlying`
being what the unit's write returns). -/
def writerWrite (w : WriterModel) (underlying : Nat × Option GoErr) (s : WrapSt) :
    WrapSt × (Nat × Option GoErr) :=
  if s.closed then (s, (0, some errClosed))
  else ({ s with started := true },
        if w.preArmedReadOnly then (0, some errReadOnly) else underlying)

/-- `(*stream).Write` (stream.go, lines 36-41): the `WriteBuffer` capability
is re-checked on each call; without it the write returns
`(0, ErrReadOnly)`, with it the unit's write result passes through. -/
def streamWrite (writable : Bool) (underlying : Nat × Option GoErr) :
    Nat × Option GoErr :=
  if writable then underlying else (0, some errReadOnly)

/-! ## Theorems -/

/-- `errors.Is` always finds its own target at the root. -/
lemma errorsIs_self (e : GoErr) : errorsIs e e = true := by
  cases e <;> simp [errorsIs]

/-- C6. For every Reader or Writer on which no read or write has occurred
(`started = false`), Close returns nil, does not invoke the underlying
unit's close, does not cancel the derived cancelation scope, and does not
wait on the drain channel; the wrapper remains unstarted, so the underlying
command never starts. -/
theorem never_started_close_noop (hasCancel : Bool) (u : UnitModel) (s : WrapSt)
    (h : s.started = false) :
    (readerClose hasCancel u s).result = none ∧
    (readerClose hasCancel u s).canceled = false ∧
    (readerClose hasCancel u s).unitClosed = false ∧
    (readerClose hasCancel u s).st.started = false ∧
    (writerClose u s).result = none ∧
    (writerClose u s).inputClosed = false ∧
    (writerClose u s).waitedDrain = false ∧
    (writerClose u s).st.started = false := by
  cases hc : s.closed <;> simp [readerClose, writerClose, hc, h]

/-- Witness for `never_started_close_noop` at a concrete never-started
wrapper over a closable unit. -/
theorem never_started_close_noop_witness :
    (⟨false, false⟩ : WrapSt).started = false ∧
    (readerClose true ⟨true, some (.basic "boom"), none⟩ ⟨false, false⟩).result
      = none ∧
    (writerClose ⟨true, some (.basic "boom"), none⟩ ⟨false, false⟩).inputClosed
      = false := by
  refine ⟨by decide, ?_, ?_⟩
  · exact (never_started_close_noop true ⟨true, some (.basic "boom"), none⟩
      ⟨false, false⟩ (by decide)).1
  · exact (never_started_close_noop true ⟨true, some (.basic "boom"), none⟩
      ⟨false, false⟩ (by decide)).2.2.2.2.2.1

/-- C7. Once Close has been called on a Reader or a Writer — whatever state
it was in — any further Read (Reader) or Write (Writer) returns the
closed-resource error `ErrClosed` with zero bytes and leaves the state
unchanged, and a second Close returns nil. -/
theorem closed_wrapper_ops_fail_and_close_idempotent
    (hasCancel hasCancel' : Bool) (u u' : UnitModel) (w : WriterModel)
    (s t : WrapSt) (underlying : Nat × Option GoErr) :
    readerRead underlying (readerClose hasCancel u s).st =
      ((readerClose hasCancel u s).st, (0, some errClosed)) ∧
    (readerClose hasCancel' u' (readerClose hasCancel u s).st).result = none ∧
    writerWrite w underlying (writerClose u t).st =
      ((writerClose u t).st, (0, some errClosed)) ∧
    (writerClose u' (writerClose u t).st).result = none := by
  cases hs : s.closed <;> cases hst : s.started <;>
    cases ht : t.closed <;> cases htt : t.started <;>
    cases hcl : u.closable <;> cases hce : u.closeErr <;>
    simp [readerClose, writerClose, readerRead, writerWrite, hs, hst, ht, htt,
      hcl, hce]

/-- C8. For every Execution Unit lacking write capability: `NewWriter`
pre-arms the wrapper at construction (it holds the `readOnlyBuffer`), every
`Write` on the not-yet-closed wrapper returns the read-only-violation error
`ErrReadOnly` with zero bytes regardless of what the unit's own write would
return, and a Stream's `Write` over the unit returns `ErrReadOnly` on every
call, the capability being re-checked per call. -/
theorem read_only_unit_write_violation (writable : Bool)
    (hw : writable = false) (s : WrapSt) (hs : s.closed = false)
    (underlying : Nat × Option GoErr) :
    (newWriter writable).preArmedReadOnly = true ∧
    writerWrite (newWriter writable) underlying s =
      ({ s with started := true }, (0, some errReadOnly)) ∧
    streamWrite writable underlying = (0, some errReadOnly) := by
  subst hw
  simp [newWriter, writerWrite, streamWrite, hs]

/-- Witness for `read_only_unit_write_violation` at a fresh wrapper whose
unit's write would have succeeded. -/
theorem read_only_unit_write_violation_witness :
    (false = false ∧ (⟨false, false⟩ : WrapSt).closed = false) ∧
    writerWrite (newWriter false) (5, none) ⟨false, false⟩ =
      (⟨true, false⟩, (0, some errReadOnly)) := by
  refine ⟨⟨rfl, by decide⟩, ?_⟩
  exact (read_only_unit_write_violation false rfl ⟨false, false⟩ (by decide)
    (5, none)).2.1

/-- C2, counterexample. A started, not-yet-closed Writer over a closable
unit whose input-side close fails: Close returns the close error without
ever consulting the drain channel, so it does not return the channel's
value (`drain = none` here, but the result is `some`). -/
theorem writer_close_not_always_drain_value :
    ¬((writerClose ⟨true, some (.basic "close failed"), none⟩
        ⟨true, false⟩).inputClosed = true ∧
      (writerClose ⟨true, some (.basic "close failed"), none⟩
        ⟨true, false⟩).waitedDrain = true ∧
      (writerClose ⟨true, some (.basic "close failed"), none⟩
        ⟨true, false⟩).result =
        (⟨true, some (.basic "close failed"), none⟩ : UnitModel).drain) := by
  decide

/-- C2, amended. For every Writer on which a Write has occurred and Close
has not yet been called: Close marks the wrapper closed; when the unit is
closable it closes the input side, and if that close fails its error is
returned immediately without consulting the drain channel; otherwise
(input close succeeded, or the unit exposes no close) Close blocks until
the background drain task's completion channel yields its value and returns
that value. -/
theorem writer_close_after_started (u : UnitModel) (s : WrapSt)
    (hstart : s.started = true) (hclosed : s.closed = false) :
    (writerClose u s).st.closed = true ∧
    (u.closable = true → (writerClose u s).inputClosed = true) ∧
    (u.closable = true → u.closeErr = none →
      (writerClose u s).waitedDrain = true ∧ (writerClose u s).result = u.drain) ∧
    (∀ e, u.closable = true → u.closeErr = some e →
      (writerClose u s).waitedDrain = false ∧ (writerClose u s).result = some e) ∧
    (u.closable = false →
      (writerClose u s).inputClosed = false ∧
      (writerClose u s).waitedDrain = true ∧ (writerClose u s).result = u.drain) := by
  cases hcl : u.closable <;> cases hce : u.closeErr <;>
    simp [writerClose, hstart, hclosed, hcl, hce]

/-- Witness for `writer_close_after_started`: a started writer over a
cleanly-closing unit returns the drain channel's value. -/
theorem writer_close_after_started_witness :
    ((⟨true, false⟩ : WrapSt).started = true ∧
     (⟨true, false⟩ : WrapSt).closed = false) ∧
    (writerClose ⟨true, none, some (.basic "exit status 1")⟩
      ⟨true, false⟩).result = some (.basic "exit status 1") := by
  refine ⟨⟨by decide, by decide⟩, ?_⟩
  exact ((writer_close_after_started ⟨true, none, some (.basic "exit status 1")⟩
    ⟨true, false⟩ (by decide) (by decide)).2.2.1 (by decide) (by decide)).2

/-- Reading a cons cell of the association list. -/
lemma envGet_cons (k' v' : String) (rest : EnvMap) (k : String) :
    envGet ((k', v') :: rest) k = if k' = k then some v' else envGet rest k := by
  by_cases h : k' = k <;> simp [envGet, List.find?_cons, h]

/-- A map write is visible to a read of the same key. -/
lemma envGet_envSet_self (m : EnvMap) (k v : String) :
    envGet (envSet m k v) k = some v := by
  induction m with
  | nil => simp [envSet, envGet_cons]
  | cons kv rest ih =>
      obtain ⟨k', v'⟩ := kv
      by_cases h : k' = k
      · simp [envSet, h, envGet_cons]
      · simp [envSet, h, envGet_cons, ih]

/-- A map write leaves reads of other keys unchanged. -/
lemma envGet_envSet_ne (m : EnvMap) (v : String) {k k₀ : String}
    (h : k ≠ k₀) : envGet (envSet m k₀ v) k = envGet m k := by
  induction m with
  | nil => simp [envSet, envGet_cons, envGet, Ne.symm h]
  | cons kv rest ih =>
      obtain ⟨k', v'⟩ := kv
      by_cases h' : k' = k₀
      · subst h'
        simp [envSet, envGet_cons, Ne.symm h]
      · by_cases h'' : k' = k <;> simp [envSet, envGet_cons, h', h'', h, ih]

/-- C9. Merging `{"A":"1"}` and then `{"A":"2","B":"3"}` into any context's
environment yields reads of `A == "2"` and `B == "3"` — later values
override matching keys — while every other key reads as it did before the
merges; applying `WithoutEnv` afterward yields a context whose stored
environment is nil (no entries). -/
theorem withenv_merge_roundtrip (ctx : Ctx) (q : String → String) :
    EnvRead (WithEnv (WithEnv ctx [("A", "1")]) [("A", "2"), ("B", "3")]) q "A"
      = "2" ∧
    EnvRead (WithEnv (WithEnv ctx [("A", "1")]) [("A", "2"), ("B", "3")]) q "B"
      = "3" ∧
    (∀ k, k ≠ "A" → k ≠ "B" →
      envFromCtx (WithEnv (WithEnv ctx [("A", "1")]) [("A", "2"), ("B", "3")]) k
        = envFromCtx ctx k) ∧
    Envs (WithoutEnv (WithEnv (WithEnv ctx [("A", "1")]) [("A", "2"), ("B", "3")]))
      = none := by
  have hAB : ∀ (m : EnvMap) (v : String), envGet (envSet m "B" v) "A" = envGet m "A" :=
    fun m v => envGet_envSet_ne m v (by decide)
  refine ⟨?_, ?_, ?_, ?_⟩
  · simp [EnvRead, envFromCtx, Envs, WithEnv, envCopy, hAB, envGet_envSet_self]
  · simp [EnvRead, envFromCtx, Envs, WithEnv, envCopy, envGet_envSet_self]
  · intro k hA hB
    cases hv : ctx.envVal with
    | none =>
        simp only [envFromCtx, Envs, WithEnv, envCopy, List.foldl, hv,
          Option.getD_none, Option.getD_some]
        rw [envGet_envSet_ne _ _ hB, envGet_envSet_ne _ _ hA,
          envGet_envSet_ne _ _ hA]
        simp [envGet]
    | some env =>
        simp only [envFromCtx, Envs, WithEnv, envCopy, List.foldl, hv,
          Option.getD_none, Option.getD_some]
        rw [envGet_envSet_ne _ _ hB, envGet_envSet_ne _ _ hA,
          envGet_envSet_ne _ _ hA]
  · simp [Envs, WithoutEnv, WithEnv]

/-- Witness for `withenv_merge_roundtrip`: a context already holding
`C = "7"` keeps it through both merges. -/
theorem withenv_merge_roundtrip_witness :
    (("C" : String) ≠ "A" ∧ ("C" : String) ≠ "B") ∧
    envFromCtx
      (WithEnv (WithEnv ⟨some [("C", "7")]⟩ [("A", "1")])
        [("A", "2"), ("B", "3")]) "C"
      = envFromCtx ⟨some [("C", "7")]⟩ "C" := by
  refine ⟨⟨by decide, by decide⟩, ?_⟩
  exact (withenv_merge_roundtrip ⟨some [("C", "7")]⟩ (fun _ => "")).2.2.1 "C"
    (by decide) (by decide)

/-- C1, counterexample. The example pipeline — source `"hello world"`, one
uppercasing interior stage (`tr a-z A-Z` of the in-memory machine), buffer
sink — does not return byte count 11: `Copy` sums the per-edge counts and
both edges carry 11 bytes, so the claimed conjunction fails. -/
theorem copy_hello_world_count_not_eleven :
    ¬((runCopy ⟨"<*strings.Reader>", "hello world", none⟩
        [⟨"tr a-z A-Z", trTransform "a-z" "A-Z", none, none⟩]
        ⟨false, none⟩).err = none ∧
      (runCopy ⟨"<*strings.Reader>", "hello world", none⟩
        [⟨"tr a-z A-Z", trTransform "a-z" "A-Z", none, none⟩]
        ⟨false, none⟩).sinkData = "HELLO WORLD" ∧
      (runCopy ⟨"<*strings.Reader>", "hello world", none⟩
        [⟨"tr a-z A-Z", trTransform "a-z" "A-Z", none, none⟩]
        ⟨false, none⟩).written = 11) := by
  decide

/-- C1, amended. For the pipeline whose source yields `"hello world"`, whose
single interior stage uppercases its input (`tr a-z A-Z`), and whose sink is
an in-memory buffer: `Copy` returns no error, the sink's final content is
`"HELLO WORLD"`, and the returned total byte count is 22 — the sum of the
successfully-copied counts of the two flow edges, 11 bytes each. -/
theorem copy_hello_world_pipeline :
    (runCopy ⟨"<*strings.Reader>", "hello world", none⟩
      [⟨"tr a-z A-Z", trTransform "a-z" "A-Z", none, none⟩]
      ⟨false, none⟩).err = none ∧
    (runCopy ⟨"<*strings.Reader>", "hello world", none⟩
      [⟨"tr a-z A-Z", trTransform "a-z" "A-Z", none, none⟩]
      ⟨false, none⟩).sinkData = "HELLO WORLD" ∧
    (runCopy ⟨"<*strings.Reader>", "hello world", none⟩
      [⟨"tr a-z A-Z", trTransform "a-z" "A-Z", none, none⟩]
      ⟨false, none⟩).edges.map (fun e => e.n) = [11, 11] ∧
    (runCopy ⟨"<*strings.Reader>", "hello world", none⟩
      [⟨"tr a-z A-Z", trTransform "a-z" "A-Z", none, none⟩]
      ⟨false, none⟩).written = 22 := by
  decide

/-- `errors.Join` keeps its left argument reachable for `errors.Is`. -/
lemma goJoin_left (a : GoErr) (b : Option GoErr) :
    ∃ je, goJoin (some a) b = some je ∧ errorsIs je a = true := by
  cases b with
  | none => exact ⟨.join1 a, rfl, by simp [errorsIs, errorsIs_self]⟩
  | some b' => exact ⟨.join2 a b', rfl, by simp [errorsIs, errorsIs_self]⟩

/-- `errors.Join` keeps its right argument reachable for `errors.Is`, and
its left one too when that is non-nil. -/
lemma goJoin_right (a : Option GoErr) (b : GoErr) :
    ∃ je, goJoin a (some b) = some je ∧ errorsIs je b = true ∧
      ∀ pa, a = some pa → errorsIs je pa = true := by
  cases a with
  | none =>
      refine ⟨.join1 b, rfl, by simp [errorsIs, errorsIs_self], ?_⟩
      intro pa hpa
      cases hpa
  | some pa' =>
      refine ⟨.join2 pa' b, rfl, by simp [errorsIs, errorsIs_self], ?_⟩
      intro pa hpa
      injection hpa with hpa
      subst hpa
      simp [errorsIs, errorsIs_self]

/-- The deferred cleanup closes an edge's writer exactly when the writer is
an `io.Closer`, independent of how the copy ended. -/
lemma copyEdges_close_unconditional (label data : String) (readErr : Option GoErr)
    (mids : List MidModel) (sink : SinkModel) :
    ∀ e ∈ copyEdges label data readErr mids sink,
      e.closeInvoked = e.writerClosable := by
  induction mids generalizing label data readErr with
  | nil =>
      intro e he
      simp [copyEdges] at he
      subst he
      rfl
  | cons m rest ih =>
      intro e he
      simp only [copyEdges, List.mem_cons] at he
      rcases he with rfl | he
      · rfl
      · exact ih _ _ _ e he

/-- C3. For every `Copy` run in which some edge's copy fails with an
underlying error `E`: the aggregate `*copyError` carrying all per-edge
results is returned, membership of `E` in it holds under the standard
error-chain test, every closable writer was closed regardless of how its
edge's copy ended, and each edge's close error is joined with — not
dropped in favor of — its copy error in the per-edge result. -/
theorem copy_failure_aggregation (src : SrcModel) (mids : List MidModel)
    (sink : SinkModel) (E : GoErr)
    (h : ∃ e ∈ (runCopy src mids sink).edges, e.copyErr = some E) :
    (runCopy src mids sink).err = some (runCopy src mids sink).results ∧
    copyErrorIs (runCopy src mids sink).results E = true ∧
    (∀ e ∈ (runCopy src mids sink).edges, e.closeInvoked = e.writerClosable) ∧
    (∀ e ∈ (runCopy src mids sink).edges, ∀ ce, e.closeErr = some ce →
      ∃ r ∈ (runCopy src mids sink).results, r.cmd = e.label ∧
        ∃ je, r.err = some je ∧ errorsIs je ce = true ∧
          ∀ pe, e.copyErr = some pe → errorsIs je pe = true) := by
  obtain ⟨e₀, he₀, hce₀⟩ := h
  refine ⟨?_, ?_, ?_, ?_⟩
  · have hany : ((runCopy src mids sink).edges.any fun e => e.copyErr.isSome)
        = true :=
      List.any_eq_true.mpr ⟨e₀, he₀, by simp [hce₀]⟩
    have hany' : ((copyEdges src.label src.data src.readErr mids sink).any
        fun e => e.copyErr.isSome) = true := hany
    show (if (copyEdges src.label src.data src.readErr mids sink).any
          (fun e => e.copyErr.isSome) then
        some ((copyEdges src.label src.data src.readErr mids sink).map
          (fun e => (⟨e.label, goJoin e.copyErr e.closeErr⟩ : CopyResult)))
      else none) = some (runCopy src mids sink).results
    rw [if_pos hany']
    rfl
  · obtain ⟨je, hje, hisE⟩ := goJoin_left E e₀.closeErr
    apply List.any_eq_true.mpr
    refine ⟨je, ?_, hisE⟩
    apply List.mem_filterMap.mpr
    refine ⟨⟨e₀.label, goJoin e₀.copyErr e₀.closeErr⟩,
      List.mem_map_of_mem _ he₀, ?_⟩
    show goJoin e₀.copyErr e₀.closeErr = some je
    rw [hce₀, hje]
  · exact copyEdges_close_unconditional src.label src.data src.readErr mids sink
  · intro e he ce hce
    obtain ⟨je, hje, hiseCe, hisePe⟩ := goJoin_right e.copyErr ce
    refine ⟨⟨e.label, goJoin e.copyErr e.closeErr⟩,
      List.mem_map_of_mem _ he, rfl, je, ?_, hiseCe, hisePe⟩
    show goJoin e.copyErr e.closeErr = some je
    rw [hce, hje]

/-- Witness for `copy_failure_aggregation`: three interior stages, the
middle one's reader failing with `E`; membership of `E` in the aggregate
holds. -/
theorem copy_failure_aggregation_witness :
    (∃ e ∈ (runCopy ⟨"src", "abc", none⟩
        [⟨"stage1", fun s => s, none, none⟩,
         ⟨"stage2", fun s => s, some (.basic "E"), none⟩,
         ⟨"stage3", fun s => s, none, none⟩]
        ⟨true, none⟩).edges, e.copyErr = some (.basic "E")) ∧
    copyErrorIs (runCopy ⟨"src", "abc", none⟩
        [⟨"stage1", fun s => s, none, none⟩,
         ⟨"stage2", fun s => s, some (.basic "E"), none⟩,
         ⟨"stage3", fun s => s, none, none⟩]
        ⟨true, none⟩).results (.basic "E") = true := by
  refine ⟨by decide, ?_⟩
  exact (copy_failure_aggregation ⟨"src", "abc", none⟩
    [⟨"stage1", fun s => s, none, none⟩,
     ⟨"stage2", fun s => s, some (.basic "E"), none⟩,
     ⟨"stage3", fun s => s, none, none⟩]
    ⟨true, none⟩ (.basic "E") (by decide)).2.1

/-- The route-table walk agrees with a plain lookup. -/
lemma routeFn_eq_lookup (routes : List (String × Machine)) (core : Machine)
    (fb : Bool) (name : String) (rest : List String) :
    routeFn routes core fb name rest =
      match lookupRoute routes name with
      | some m => commandFn m (name :: rest)
      | none =>
          if fb then commandFn core (name :: rest)
          else failBuf (.cmdError (.basic ("command not found: " ++ name)) 0 "") := by
  induction routes with
  | nil => simp [routeFn, lookupRoute]
  | cons p rest' ih =>
      obtain ⟨n, m⟩ := p
      by_cases h : n = name <;> simp [routeFn, lookupRoute, h, ih]

/-- C4. Sh routing: a name registered via `Handle` delegates to the
registered executor (stated both through the lookup and through a fresh
`Handle` registration); an unregistered name on a strictly constructed Sh
(fallback off) yields a `Fail` buffer (empty data) whose read error is the
classified error with cause present and code zero, which the `NotFound`
predicate classifies as not-found; and on a fallback-enabled Sh the same
unregistered invocation is delegated to the core executor. -/
theorem sh_routing (routes : List (String × Machine)) (core : Machine)
    (name : String) (rest : List String) :
    (∀ (m : Machine) (fb : Bool), lookupRoute routes name = some m →
      commandFn (.sh routes core fb) (name :: rest) = commandFn m (name :: rest)) ∧
    (∀ (m : Machine) (fb : Bool),
      commandFn (.sh (shHandle routes name m) core fb) (name :: rest) =
        commandFn m (name :: rest)) ∧
    (lookupRoute routes name = none →
      commandFn (.sh routes core false) (name :: rest) =
        failBuf (.cmdError (.basic ("command not found: " ++ name)) 0 "") ∧
      goNotFound (failBuf
        (.cmdError (.basic ("command not found: " ++ name)) 0 "")).readErr
        = true) ∧
    (lookupRoute routes name = none →
      commandFn (.sh routes core true) (name :: rest) =
        commandFn core (name :: rest)) := by
  refine ⟨?_, ?_, ?_, ?_⟩
  · intro m fb hfound
    simp [commandFn, routeFn_eq_lookup, hfound]
  · intro m fb
    simp [commandFn, routeFn, shHandle]
  · intro hmiss
    refine ⟨by simp [commandFn, routeFn_eq_lookup, hmiss], ?_⟩
    simp [failBuf, goNotFound, errAsCmdError]
  · intro hmiss
    simp [commandFn, routeFn_eq_lookup, hmiss]

/-- Witness for `sh_routing`: a shell with only `"echo"` registered
delegates `"echo","hi"` to the registered executor. -/
theorem sh_routing_witness :
    lookupRoute (shHandle [] "echo" (.func fun _ => ⟨"hi\n", none⟩)) "echo"
      = some (.func fun _ => ⟨"hi\n", none⟩) ∧
    commandFn
      (.sh (shHandle [] "echo" (.func fun _ => ⟨"hi\n", none⟩))
        (.func fun _ => ⟨"", none⟩) false)
      ["echo", "hi"] =
      commandFn (.func fun _ => ⟨"hi\n", none⟩) ["echo", "hi"] := by
  refine ⟨rfl, ?_⟩
  exact (sh_routing (shHandle [] "echo" (.func fun _ => ⟨"hi\n", none⟩))
    (.func fun _ => ⟨"", none⟩) "echo" ["hi"]).1
    (.func fun _ => ⟨"hi\n", none⟩) false rfl

/-- Evaluating `trimRightSpace` on the outputs the routing scenarios
produce. -/
lemma trimRightSpace_empty : trimRightSpace "" = "" := rfl

/-- C10. For every Sh — strict or fallback-enabled — invoking `Command`
with zero arguments yields `Fail(fmt.Errorf("no command specified"))`: a
plain error not wrapped in the classified error type, so `NotFound` is
false on it, and `probeRead` returns this result as-is instead of retrying
at an inner layer. -/
theorem sh_empty_args_plain_error (routes : List (String × Machine))
    (core : Machine) (fb : Bool) :
    commandFn (.sh routes core fb) [] = failBuf (.basic "no command specified") ∧
    goNotFound (failBuf (.basic "no command specified")).readErr = false ∧
    probeRead (.sh routes core fb) [] = runRead (.sh routes core fb) [] ∧
    probeRead (.sh routes core fb) [] =
      ("", some (.basic "no command specified")) := by
  refine ⟨by simp [commandFn], by simp [failBuf, goNotFound, errAsCmdError], ?_, ?_⟩
  · simp [probeRead, runRead, commandFn, failBuf, goNotFound, errAsCmdError]
  · simp [probeRead, runRead, commandFn, failBuf, goNotFound, errAsCmdError,
      trimRightSpace_empty]

/-- A machine exposing no inner executor ends the probing loop with its own
result, not-found or not. -/
lemma probeRead_func (f : List String → BufferModel) (args : List String) :
    probeRead (.func f) args = runRead (.func f) args := by
  simp only [probeRead]
  split <;> rfl

/-- A non-not-found read result stops the probing loop at once. -/
lemma probeRead_stop (m : Machine) (args : List String)
    (h : goNotFound (runRead m args).2 = false) :
    probeRead m args = runRead m args := by
  cases m with
  | func f => exact probeRead_func f args
  | sh routes core fb => simp [probeRead, h]

/-- A not-found read result against a router makes the probing loop retry
against the router's core. -/
lemma probeRead_descend (routes : List (String × Machine)) (core : Machine)
    (fb : Bool) (args : List String)
    (h : goNotFound (runRead (.sh routes core fb) args).2 = true) :
    probeRead (.sh routes core fb) args = probeRead core args := by
  have hnone : (runRead (.sh routes core fb) args).2.isNone = false := by
    cases hr : (runRead (.sh routes core fb) args).2 with
    | none => rw [hr] at h; simp [goNotFound] at h
    | some e => simp
  simp [probeRead, h, hnone]

/-- The probing loop lands, after finitely many `Unshell` steps, on some
reachable executor whose plain read result it returns. -/
lemma probeRead_reaches (m : Machine) (args : List String) :
    ∃ t, UnshellReaches m t ∧ probeRead m args = runRead t args := by
  have key : ∀ (n : Nat) (m : Machine) (args : List String), sizeOf m ≤ n →
      ∃ t, UnshellReaches m t ∧ probeRead m args = runRead t args := by
    intro n
    induction n with
    | zero =>
        intro m args h
        exfalso
        cases m <;> simp at h
    | succ n ih =>
        intro m args h
        cases m with
        | func f => exact ⟨.func f, .refl _, probeRead_func f args⟩
        | sh routes core fb =>
            cases hc : goNotFound (runRead (.sh routes core fb) args).2 with
            | false =>
                exact ⟨.sh routes core fb, .refl _,
                  probeRead_stop (.sh routes core fb) args hc⟩
            | true =>
                have hsz : sizeOf core ≤ n := by
                  simp at h
                  omega
                obtain ⟨t, ht, he⟩ := ih core args hsz
                exact ⟨t, .step rfl ht,
                  (probeRead_descend routes core fb args hc).trans he⟩
  exact key (sizeOf m) m args le_rfl

/-- C5. The probing loop: any result that is not classified not-found —
success or genuine failure — is returned as-is without descending; a
not-found result against an executor exposing a one-layer-down executor
replaces it with that inner one and retries; a not-found result against an
executor with no inner layer is returned; and for every machine (hence
every finite nesting of wrapping layers) the loop terminates, its result
being the plain read of some executor reachable along the `Unshell`
relation. -/
theorem probe_retries_through_layers :
    (∀ (m : Machine) (args : List String),
      goNotFound (runRead m args).2 = false →
      probeRead m args = runRead m args) ∧
    (∀ (routes : List (String × Machine)) (core : Machine) (fb : Bool)
      (args : List String),
      goNotFound (runRead (.sh routes core fb) args).2 = true →
      probeRead (.sh routes core fb) args = probeRead core args) ∧
    (∀ (f : List String → BufferModel) (args : List String),
      unshellOpt (.func f) = none ∧
      probeRead (.func f) args = runRead (.func f) args) ∧
    (∀ (m : Machine) (args : List String),
      ∃ t, UnshellReaches m t ∧ probeRead m args = runRead t args) :=
  ⟨probeRead_stop, probeRead_descend,
   fun f args => ⟨rfl, probeRead_func f args⟩, probeRead_reaches⟩

/-- Witness for `probe_retries_through_layers`: a strict shell whose read
result is not-found descends to its core. -/
theorem probe_retries_through_layers_witness :
    goNotFound (runRead
      (.sh [] (.func fun _ => ⟨"linux\n", none⟩) false) ["uname"]).2 = true ∧
    probeRead (.sh [] (.func fun _ => ⟨"linux\n", none⟩) false) ["uname"] =
      probeRead (.func fun _ => ⟨"linux\n", none⟩) ["uname"] := by
  refine ⟨?_, ?_⟩
  · simp [runRead, commandFn, routeFn, failBuf, goNotFound, errAsCmdError]
  · exact probe_retries_through_layers.2.1 []
      (.func fun _ => ⟨"linux\n", none⟩) false ["uname"]
      (by simp [runRead, commandFn, routeFn, failBuf, goNotFound, errAsCmdError])

end Command
